import Mathlib

/-!
Verification development for the bring-your-own-host infrastructure
provider.  The definitions below are shallow embeddings of the Go source:

* `getCleanupTimeout`, `byoHostReconcile` — the server-side host
  controller (`controllers/infrastructure/byohost_controller.go`, the
  current version of the file).
* `hostCleanupTimeout`, `reconcileDelete` — the machine controller's
  deletion path (`byomachine_controller.go`).
* `selectHostForClaim` — the machine controller's host selection.
* `GenerateProviderID`, `ValidateProviderID`, `setNodeProviderID` —
  provider-ID propagation (`common/utils.go`, `byomachine_controller.go`).
* `RunCmd` — the agent's command runner (`agent/cloudinit/cmd_runner.go`).
* `parseEncodingScheme`, `decodeContent`, `b64encode`, `b64decode` —
  the cloud-init content decoder (`agent/cloudinit/cloudinit.go`).
* `csrReconcile`, `checkCSRCondition` — the CSR auto-approver.
* `createBootstrapSecretTLSBootstrap` — TLS-bootstrap secret assembly.

Durations and timestamps are modelled in whole seconds as `Nat`.  A
negative or unparsable environment override behaves in the Go code exactly
like an out-of-range one (the guard `timeout >= min` fails and the
computed value is used), so representing parsed overrides as `Nat` loses
no behaviour.  `time.Since` of a future timestamp is negative in Go and
never exceeds the (positive) timeout; truncated `Nat` subtraction gives 0
there, again never exceeding the timeout, so outcomes agree.
-/

/-! ## Association-list helpers (Go `map[string]string`) -/

def lookupA (m : List (String × String)) (k : String) : Option String :=
  match m with
  | [] => none
  | (k', v) :: rest => if k' = k then some v else lookupA rest k

def setA (m : List (String × String)) (k v : String) : List (String × String) :=
  match m with
  | [] => [(k, v)]
  | (k', v') :: rest => if k' = k then (k', v) :: rest else (k', v') :: setA rest k v

def delA (m : List (String × String)) (k : String) : List (String × String) :=
  match m with
  | [] => []
  | (k', v') :: rest => if k' = k then delA rest k else (k', v') :: delA rest k

/-! ## Host data model

Only the fields the embedded reconciles read or write are modelled.
Condition statuses are a map from condition type to `Bool`
(`true` = ConditionTrue); `MachineRef` is the referenced machine's UID. -/

def hostCleanupAnnot : String := "byoh.infrastructure.cluster.x-k8s.io/host-cleanup"

def cleanupStartedAtAnnot : String := "byoh.infrastructure.cluster.x-k8s.io/cleanup-started-at"

def forceCleanupAuditAnnot : String := "byoh.infrastructure.cluster.x-k8s.io/force-cleanup-audit"

def k8sComponentsInstalledCond : String := "K8sComponentsInstallationSucceeded"

def k8sNodeBootstrappedCond : String := "K8sNodeBootstrapSucceeded"

structure ByoHostState where
  name : String
  annots : List (String × String)
  machineRef : Option String
  deletionTs : Option Nat
  conditions : List (String × Bool)
  capCpu : Option Nat
  capMemBytes : Option Nat
  priority : Int
  deriving Repr, DecidableEq

def lookupCond (conds : List (String × Bool)) (t : String) : Option Bool :=
  match conds with
  | [] => none
  | (t', s) :: rest => if t' = t then some s else lookupCond rest t

def setCond (conds : List (String × Bool)) (t : String) (s : Bool) : List (String × Bool) :=
  match conds with
  | [] => [(t, s)]
  | (t', s') :: rest => if t' = t then (t', s) :: rest else (t', s') :: setCond rest t s

/-! ## Host controller: `getCleanupTimeout`

Embeds `ByoHostReconciler.getCleanupTimeout`.  `envTimeout` is the parsed
value of the `BYOH_HOST_CLEANUP_TIMEOUT` environment variable (`none` when
unset or unparsable).  Durations are seconds. -/

def defaultHostCleanupTimeout : Nat := 300

def minHostCleanupTimeout : Nat := 120

def maxHostCleanupTimeout : Nat := 900

def gib : Nat := 1073741824

def getCleanupTimeout (envTimeout : Option Nat) (capCpu capMemBytes : Option Nat) : Nat :=
  match envTimeout with
  | some t =>
    if minHostCleanupTimeout ≤ t ∧ t ≤ maxHostCleanupTimeout then t
    else getCleanupTimeoutComputed capCpu capMemBytes
  | none => getCleanupTimeoutComputed capCpu capMemBytes
where
  getCleanupTimeoutComputed (capCpu capMemBytes : Option Nat) : Nat :=
    let t0 := defaultHostCleanupTimeout
    let t1 :=
      match capCpu with
      | some cpu => if cpu > 8 then t0 + (cpu - 8) * 30 else t0
      | none => t0
    let t2 :=
      match capMemBytes with
      | some mem => if mem > 16 * gib then t1 + ((mem - 16 * gib) / (8 * gib)) * 60 else t1
      | none => t1
    let t3 := if t2 < minHostCleanupTimeout then minHostCleanupTimeout else t2
    if t3 > maxHostCleanupTimeout then maxHostCleanupTimeout else t3

/-- Written from the words of the specification (section 4.D and the
environment-variable paragraph of section 6), for comparison against
`getCleanupTimeout`: base 5 min, +30 s per CPU beyond 8, +1 min per full
8 GiB beyond 16 GiB, clamped to [2 min, 15 min]; a set override is used
flat, with out-of-range overrides clamped to the same interval. -/
def specCleanupTimeoutClaimed (envTimeout : Option Nat) (capCpu capMemBytes : Option Nat) : Nat :=
  match envTimeout with
  | some t => min maxHostCleanupTimeout (max minHostCleanupTimeout t)
  | none =>
    let cpuExtra := match capCpu with
      | some cpu => if cpu > 8 then (cpu - 8) * 30 else 0
      | none => 0
    let memExtra := match capMemBytes with
      | some mem => if mem > 16 * gib then ((mem - 16 * gib) / (8 * gib)) * 60 else 0
      | none => 0
    min maxHostCleanupTimeout
      (max minHostCleanupTimeout (defaultHostCleanupTimeout + cpuExtra + memExtra))

/-- The claim amended no more than the counterexample forces: identical to
`specCleanupTimeoutClaimed` except that an out-of-range override is
ignored (the computed, clamped value is used) instead of being clamped. -/
def specCleanupTimeoutAmended (envTimeout : Option Nat) (capCpu capMemBytes : Option Nat) : Nat :=
  let computed := specCleanupTimeoutClaimed none capCpu capMemBytes
  match envTimeout with
  | some t =>
    if minHostCleanupTimeout ≤ t ∧ t ≤ maxHostCleanupTimeout then t else computed
  | none => computed

/-! ## Host controller: the cleanup branch of `Reconcile`

Embeds the cleanup-annotation branch of `ByoHostReconciler.Reconcile`
(current version of `byohost_controller.go`).  `now` is the wall clock in
seconds; timestamps stored in the started-at annotation are modelled as
decimal seconds (the RFC 3339 rendering in the source is an injective
encoding of the same instant).  `nodeExists` tells whether the workload
Node object named after the host exists; deleting it is reported in the
result rather than performed.  The defer-ed patch in the source writes
back the returned host state. -/

structure HostRecResult where
  host : ByoHostState
  nodeDeleted : Bool
  requeueAfterSec : Option Nat
  deriving Repr, DecidableEq

def auditEntry (now timeout elapsed : Nat) : String :=
  "timestamp=" ++ toString now ++ ",reason=agent_unavailable,timeout=" ++
    toString timeout ++ ",elapsed=" ++ toString elapsed ++ ",controller=byohost-controller"

def byoHostReconcile (envTimeout : Option Nat) (now : Nat) (nodeExists : Bool)
    (h : ByoHostState) : HostRecResult :=
  match lookupA h.annots hostCleanupAnnot with
  | none => { host := h, nodeDeleted := false, requeueAfterSec := none }
  | some _ =>
    let cleanupTimeout := getCleanupTimeout envTimeout h.capCpu h.capMemBytes
    -- shouldForceCleanup / cleanupStarted / possibly record the start time
    let step :=
      match h.deletionTs with
      | some ts =>
        (decide (now - ts > cleanupTimeout), now, h.annots)
      | none =>
        match lookupA h.annots cleanupStartedAtAnnot with
        | some s =>
          match s.toNat? with
          | some startedAt =>
            if now - startedAt > cleanupTimeout then (true, now, h.annots)
            else (false, startedAt, h.annots)
          | none => (false, now, h.annots)
        | none => (false, now, setA h.annots cleanupStartedAtAnnot (toString now))
    let shouldForceCleanup := step.1
    let cleanupStarted := step.2.1
    let annots1 := step.2.2
    if shouldForceCleanup then
      let annots2 := setA annots1 forceCleanupAuditAnnot
        (auditEntry now cleanupTimeout (now - cleanupStarted))
      let annots3 := delA (delA (delA annots2 hostCleanupAnnot) cleanupStartedAtAnnot)
        forceCleanupAuditAnnot
      { host := { h with
          annots := annots3
          machineRef := none
          conditions := setCond h.conditions k8sNodeBootstrappedCond true }
        nodeDeleted := nodeExists
        requeueAfterSec := none }
    else
      { host := { h with annots := annots1 }
        nodeDeleted := false
        requeueAfterSec := some cleanupTimeout }

/-! ## Machine controller: deletion flow

Embeds the decision structure of `ByoMachineReconciler.reconcileDelete`
for an attached host.  `hostCleanupTimeout` is the flat constant declared
in the machine controller source next to the comment "This should match
the default value in byohost_controller.go". -/

def hostCleanupTimeout : Nat := 300

def requeueForByohost : Nat := 10

inductive DeleteOutcome where
  | finalize
  | requeue (afterSec : Nat)
  | markedForCleanup (afterSec : Nat)
  deriving Repr, DecidableEq

def reconcileDelete (host : Option ByoHostState) (now : Nat) : DeleteOutcome :=
  match host with
  | none => .finalize
  | some h =>
    match h.deletionTs with
    | some ts =>
      match h.machineRef with
      | some _ =>
        if now - ts > hostCleanupTimeout then .finalize
        else .requeue requeueForByohost
      | none => .finalize
    | none => .markedForCleanup requeueForByohost

/-! ## Machine controller: host selection

Embeds `ByoMachineReconciler.selectHostForClaim`.  `ByoHost.IsAvailable`,
`GetPriority` and `MatchesRequirements` are declared in an API-types file
that is not part of the provided sources; their bodies are modelled from
the specification here. -/

structure CapacityReq where
  cpu : Nat
  memBytes : Nat
  deriving Repr, DecidableEq

structure ByoMachineSel where
  capacityRequirements : Option CapacityReq
  deriving Repr, DecidableEq

/-- Modelled from the spec: `ByoHost.IsAvailable` is missing from the
provided sources; section 3 states a host is available iff `MachineRef`
is nil and no cleanup annotation is present. -/
def isAvailable (h : ByoHostState) : Bool :=
  h.machineRef.isNone && (lookupA h.annots hostCleanupAnnot).isNone

/-- Modelled from the spec: `ByoHost.GetPriority` is missing from the
provided sources; section 4.E states priority is a host-declared integer
with default 0, carried here as the `priority` field. -/
def getPriority (h : ByoHostState) : Int :=
  h.priority

/-- Modelled from the spec: `ByoHost.MatchesRequirements` is missing from
the provided sources; section 4.E filters to hosts satisfying any
`CapacityRequirements`, and section 8 states a machine with nil
requirements accepts any host. -/
def matchesRequirements (h : ByoHostState) (req : CapacityReq) : Bool :=
  decide (h.capCpu.getD 0 ≥ req.cpu) && decide (h.capMemBytes.getD 0 ≥ req.memBytes)

inductive SelectResult where
  /-- `nil` returned: no host list entry, or no available host. -/
  | noHost
  /-- The slice access `highPriorityHosts[currentIndex]` is out of range:
  a Go runtime panic. -/
  | panicked
  /-- The selected host together with the advanced cursor value stored
  back into `roundRobinIndex[clusterName]`. -/
  | selected (host : ByoHostState) (cursorAfter : Nat)
  deriving Repr, DecidableEq

def selectHostForClaim (hostsList : List ByoHostState) (machine : ByoMachineSel)
    (cursor : Nat) : SelectResult :=
  if hostsList.isEmpty then .noHost
  else
    let availableHosts := hostsList.filter fun h =>
      isAvailable h &&
        (match machine.capacityRequirements with
         | some req => matchesRequirements h req
         | none => true)
    if availableHosts.isEmpty then .noHost
    else
      let maxPriority := availableHosts.foldl
        (fun acc h => if getPriority h > acc then getPriority h else acc) 0
      let highPriorityHosts := availableHosts.filter fun h => getPriority h == maxPriority
      match highPriorityHosts.get? cursor with
      | some h => .selected h ((cursor + 1) % highPriorityHosts.length)
      | none => .panicked

/-! ## Provider-ID generation, validation and propagation -/

def ProviderIDPrefix : String := "byoh://"

def GenerateProviderID (hostname : String) : String :=
  ProviderIDPrefix ++ hostname

/-- Character-list matcher for the specification's literal reading of the
validation pattern: after the literal `byoh://<hostname>`, the remainder
must be empty or a slash followed by one or more non-newline characters
(`(/(.+))?$`, where `.` in RE2 excludes the newline). -/
def matchSlashSuffix : List Char → List Char → Bool
  | [], s =>
    match s with
    | [] => true
    | c :: rest => c == '/' && !rest.isEmpty && rest.all (fun d => d != '\n')
  | p :: ps, s =>
    match s with
    | [] => false
    | c :: cs => p == c && matchSlashSuffix ps cs

/-- Character-list matcher for the pattern `ValidateProviderID` actually
builds: the hostname is spliced into the regex text unescaped, so a '.'
in the hostname is the RE2 any-character atom and accepts any single
non-newline character, while the other characters of the DNS charset
(letters, digits, '-') are literals; after the hostname part the
remainder must be empty or a slash followed by one or more non-newline
characters.  Modelled for hostnames over the DNS charset: there '.' is
the only regex metacharacter and every pattern atom consumes exactly one
character, so RE2 matching is this deterministic left-to-right scan. -/
def matchPatSuffix : List Char → List Char → Bool
  | [], s =>
    match s with
    | [] => true
    | c :: rest => c == '/' && !rest.isEmpty && rest.all (fun d => d != '\n')
  | p :: ps, s =>
    match s with
    | [] => false
    | c :: cs => (if p = '.' then c != '\n' else p == c) && matchPatSuffix ps cs

def providerIDMatch (providerID hostname : String) : Bool :=
  matchPatSuffix (ProviderIDPrefix ++ hostname).data providerID.data

def ValidateProviderID (providerID hostname : String) : Except String Bool :=
  if providerID = "" then .error "providerID is empty"
  else .ok (providerIDMatch providerID hostname)

structure NodeS where
  providerID : String
  deriving Repr, DecidableEq

inductive SetPIDResult where
  /-- Returned provider id and node; `patched` records whether the node
  was written. -/
  | ok (pid : String) (node : NodeS) (patched : Bool)
  /-- "invalid format for node.Spec.ProviderID" error. -/
  | invalidFormat
  /-- "failed to validate providerID" error. -/
  | validateErr
  deriving Repr, DecidableEq

def setNodeProviderID (node : NodeS) (hostName : String) : SetPIDResult :=
  if node.providerID ≠ "" then
    match ValidateProviderID node.providerID hostName with
    | .error _ => .validateErr
    | .ok true => .ok node.providerID node false
    | .ok false => .invalidFormat
  else
    let pid := GenerateProviderID hostName
    .ok pid { node with providerID := pid } true

/-- The provider-ID format of the claim, written from the specification's
regex `^byoh://<hostname>(/.+)?$` with `<hostname>` read literally. -/
def SpecPIDFormat (pid hostname : String) : Prop :=
  pid = ProviderIDPrefix ++ hostname ∨
    ∃ s : String, s ≠ "" ∧ (∀ c ∈ s.data, c ≠ '\n') ∧
      pid = ProviderIDPrefix ++ hostname ++ "/" ++ s

/-- Boolean counterpart of `SpecPIDFormat` (the claim's literal reading),
used to decide it at concrete inputs. -/
def specPIDMatchB (pid hostname : String) : Bool :=
  matchSlashSuffix (ProviderIDPrefix ++ hostname).data pid.data

/-- The format the unescaped pattern actually accepts, written
relationally: the provider id splits into a body aligned
character-by-character with the pattern text `byoh://<hostname>` (where
a '.' pattern character accepts any non-newline character and every
other character stands for itself), followed by nothing or by '/' and
one or more non-newline characters. -/
def GoPIDFormat (pid hostname : String) : Prop :=
  ∃ body tail : List Char,
    pid.data = body ++ tail ∧
    List.Forall₂ (fun p c => if p = '.' then c ≠ '\n' else p = c)
      (ProviderIDPrefix ++ hostname).data body ∧
    (tail = [] ∨ ∃ t : List Char, t ≠ [] ∧ (∀ c ∈ t, c ≠ '\n') ∧ tail = '/' :: t)

/-! ## Agent command runner -/

def MaxCommandLength : Nat := 4096

def backquote : Char := Char.ofNat 96

def hasDangerousChar (cmd : String) : Bool :=
  cmd.data.any fun c => c == ';' || c == '&' || c == '|' || c == '$' || c == backquote

/-- Go `strings.TrimSpace(cmd) == ""`: every character is whitespace. -/
def isBlankCmd (cmd : String) : Bool :=
  cmd.data.all fun c => c.isWhitespace

/-- Go `len(cmd)`: the UTF-8 byte length of the string. -/
def utf8Len (cmd : String) : Nat :=
  cmd.data.foldl (fun n c => n + c.utf8Size) 0

inductive RunAction where
  /-- `RunCmd` returned without spawning a child process. -/
  | skipped
  /-- A shell child was spawned under cancellation context `ctx`. -/
  | executed (ctx : Nat) (prog : String) (args : List String)
  deriving Repr, DecidableEq

def RunCmd (ctx : Nat) (cmd : String) : RunAction :=
  if isBlankCmd cmd then .skipped
  else if utf8Len cmd > MaxCommandLength then .skipped
  else if hasDangerousChar cmd then .skipped
  else .executed ctx "/bin/bash" ["-c", cmd]

/-! ## CSR auto-approver -/

def certificateApproved : String := "Approved"

def certificateDenied : String := "Denied"

def kubeAPIServerClientSignerName : String := "kubernetes.io/kube-apiserver-client"

def kubeletServingSignerName : String := "kubernetes.io/kubelet-serving"

structure CSRCondition where
  condType : String
  status : String
  reason : String
  deriving Repr, DecidableEq

structure CSR where
  name : String
  signerName : String
  conditions : List CSRCondition
  deriving Repr, DecidableEq

def checkCSRCondition (conditions : List CSRCondition) (t : String) : Bool :=
  conditions.any fun c => c.condType == t

structure CSRRecOut where
  conditions : List CSRCondition
  submittedApproval : Bool
  deriving Repr, DecidableEq

def approvedByByoAdmission : CSRCondition :=
  { condType := certificateApproved
    status := "True"
    reason := "Approved by ByoAdmission Controller" }

def csrReconcile (csr : CSR) : CSRRecOut :=
  let csrApproved := checkCSRCondition csr.conditions certificateApproved
  let csrDenied := checkCSRCondition csr.conditions certificateDenied
  if csrApproved || csrDenied then
    { conditions := csr.conditions, submittedApproval := false }
  else if csr.signerName = kubeAPIServerClientSignerName then
    if !csr.name.startsWith "byoh-csr-" then
      { conditions := csr.conditions, submittedApproval := false }
    else
      { conditions := csr.conditions ++ [approvedByByoAdmission], submittedApproval := true }
  else if csr.signerName = kubeletServingSignerName then
    { conditions := csr.conditions ++ [approvedByByoAdmission], submittedApproval := true }
  else
    { conditions := csr.conditions, submittedApproval := false }

/-! ## TLS-bootstrap secret assembly

Embeds the credential-selection logic of
`ByoMachineReconciler.createBootstrapSecretTLSBootstrap`.  The object
store reads are supplied through `TLSEnv`: `refBkcData` is the fetched
`spec.bootstrapConfigRef` object's status data (`none` means no reference
or a failed Get; `some none` means the object carried no data),
`listBkcDatas` the status data of the namespace's BootstrapKubeconfig
list, `machineSecret` the machine's bootstrap data secret, `genResult`
the outcome of `generateBootstrapKubeconfigWithToken` (kubeconfig
content and freshly minted token) when the rest config is obtainable.
`extractCA` and `extractCACloudInit` stand for `extractCAFromKubeconfig`
and `extractCAFromCloudInit` (`none` = no CA found). -/

def JoinModeTLSBootstrap : String := "tls-bootstrap"

structure TLSEnv where
  joinMode : String
  refBkcData : Option (Option String)
  listBkcDatas : List (Option String)
  machineSecret : Option (List (String × String))
  restConfigOk : Bool
  genResult : Option (String × String)
  extractCA : String → Option String
  extractCACloudInit : String → Option String

structure TLSSecretOut where
  caData : Option String
  kubeconfigData : Option String
  generatedToken : Option String
  deriving Repr, DecidableEq

def firstListData : List (Option String) → Option String
  | [] => none
  | some d :: rest => if d.length > 0 then some d else firstListData rest
  | none :: rest => firstListData rest

def createBootstrapSecretTLSBootstrap (env : TLSEnv) : Except String TLSSecretOut :=
  -- Method 1: data from spec.bootstrapConfigRef
  let s1 : Option String × Option String :=
    match env.refBkcData with
    | some (some d) =>
      if d.length > 0 then (env.extractCA d, some d) else (none, none)
    | _ => (none, none)
  let caData1 := s1.1
  let kcData1 := s1.2
  -- Method 2: namespace-wide BootstrapKubeconfig list, skipped for
  -- TLS-bootstrap mode (a new token is generated instead)
  let s2 : Option String × Option String :=
    if kcData1.isNone then
      if env.joinMode ≠ JoinModeTLSBootstrap then
        match firstListData env.listBkcDatas with
        | some d => ((if caData1.isNone then env.extractCA d else caData1), some d)
        | none => (caData1, kcData1)
      else (caData1, kcData1)
    else (caData1, kcData1)
  let caData2 := s2.1
  let kcData2 := s2.2
  -- Method 3: the machine's existing bootstrap secret
  let s3 : Option String × Option String :=
    if kcData2.isNone then
      match env.machineSecret with
      | some kv =>
        let p1 : Option String × Option String :=
          match lookupA kv "bootstrap-kubeconfig" with
          | some d =>
            if d.length > 0 then
              ((if caData2.isNone then env.extractCA d else caData2), some d)
            else (caData2, kcData2)
          | none => (caData2, kcData2)
        let p2 : Option String × Option String :=
          if p1.1.isNone then
            match lookupA kv "ca.crt" with
            | some d => if d.length > 0 then (some d, p1.2) else p1
            | none => p1
          else p1
        if p2.1.isNone then
          match lookupA kv "value" with
          | some d => if d.length > 0 then (env.extractCACloudInit d, p2.2) else p2
          | none => p2
        else p2
      | none => (caData2, kcData2)
    else (caData2, kcData2)
  let caData3 := s3.1
  let kcData3 := s3.2
  -- Method 3 (generation): mint a fresh token only when neither a CA nor
  -- a kubeconfig was obtained above
  let s4 : Option String × Option String × Option String :=
    if caData3.isNone ∧ kcData3.isNone then
      if env.restConfigOk then
        match env.genResult with
        | some (content, tok) =>
          ((if (none : Option String).isNone then env.extractCA content else none),
            some content, some tok)
        | none => (caData3, kcData3, none)
      else (caData3, kcData3, none)
    else (caData3, kcData3, none)
  let caData4 := s4.1
  let kcData4 := s4.2.1
  let token := s4.2.2
  if (caData4.getD "").length = 0 ∧ (kcData4.getD "").length = 0 then
    .error "failed to obtain CA certificate or bootstrap kubeconfig for TLS Bootstrap mode"
  else
    .ok { caData := caData4, kubeconfigData := kcData4, generatedToken := token }

/-! ## Cloud-init content encodings

Embeds `parseEncodingScheme` and `decodeContent` from
`agent/cloudinit/cloudinit.go`.  Byte strings are lists of `Nat` below
256.  The base64 codec models Go's `encoding/base64` `StdEncoding`
(4-character blocks over the standard alphabet with `=` padding, operating
on the ASCII bytes of the encoded text).  Gzip is the standard library's
`compress/gzip` (wrapped by the repository's `GunzipData`), an external
collaborator: it enters the development as an abstract pair of functions
assumed to satisfy the decompress-compress round trip. -/

def sextetToB (n : Nat) : Nat :=
  if n < 26 then 65 + n
  else if n < 52 then 97 + (n - 26)
  else if n < 62 then 48 + (n - 52)
  else if n = 62 then 43
  else 47

def bToSextet (b : Nat) : Option Nat :=
  if 65 ≤ b ∧ b ≤ 90 then some (b - 65)
  else if 97 ≤ b ∧ b ≤ 122 then some (26 + (b - 97))
  else if 48 ≤ b ∧ b ≤ 57 then some (52 + (b - 48))
  else if b = 43 then some 62
  else if b = 47 then some 63
  else none

def padB : Nat := 61

def b64encode : List Nat → List Nat
  | [] => []
  | [a] => [sextetToB (a / 4), sextetToB (a % 4 * 16), padB, padB]
  | [a, b] => [sextetToB (a / 4), sextetToB (a % 4 * 16 + b / 16), sextetToB (b % 16 * 4), padB]
  | a :: b :: c :: rest =>
    sextetToB (a / 4) :: sextetToB (a % 4 * 16 + b / 16) ::
      sextetToB (b % 16 * 4 + c / 64) :: sextetToB (c % 64) :: b64encode rest

def decodeLast4 (w x y z : Nat) : Option (List Nat) :=
  if y = padB then
    if z = padB then
      match bToSextet w, bToSextet x with
      | some w', some x' => some [w' * 4 + x' / 16]
      | _, _ => none
    else none
  else if z = padB then
    match bToSextet w, bToSextet x, bToSextet y with
    | some w', some x', some y' => some [w' * 4 + x' / 16, x' % 16 * 16 + y' / 4]
    | _, _, _ => none
  else
    match bToSextet w, bToSextet x, bToSextet y, bToSextet z with
    | some w', some x', some y', some z' =>
      some [w' * 4 + x' / 16, x' % 16 * 16 + y' / 4, y' % 4 * 64 + z']
    | _, _, _, _ => none

def b64decode : List Nat → Option (List Nat)
  | [] => some []
  | w :: x :: y :: z :: rest =>
    if rest.isEmpty then decodeLast4 w x y z
    else
      match bToSextet w, bToSextet x, bToSextet y, bToSextet z, b64decode rest with
      | some w', some x', some y', some z', some ds =>
        some ((w' * 4 + x' / 16) :: (x' % 16 * 16 + y' / 4) :: (y' % 4 * 64 + z') :: ds)
      | _, _, _, _, _ => none
  | _ => none

def parseEncodingScheme (e : String) : List String :=
  let e := e.toLower.trim
  if e = "gz+base64" ∨ e = "gzip+base64" ∨ e = "gz+b64" ∨ e = "gzip+b64" then
    ["application/base64", "application/x-gzip"]
  else if e = "base64" ∨ e = "b64" then
    ["application/base64"]
  else
    ["text/plain"]

def decodeContent (gunzipF : List Nat → Except String (List Nat)) :
    List Nat → List String → Except String (List Nat)
  | content, [] => .ok content
  | content, e :: rest =>
    if e = "application/base64" then
      match b64decode content with
      | some r => decodeContent gunzipF r rest
      | none => .error "illegal base64 data"
    else if e = "application/x-gzip" then
      match gunzipF content with
      | .ok r => decodeContent gunzipF r rest
      | .error msg => .error msg
    else if e = "text/plain" then
      decodeContent gunzipF content rest
    else
      .error "Unknown bootstrap data encoding"

/-- Modelled from the spec: the encoder whose output `decodeContent`
consumes ("the corresponding encoding of data", section 8) — identity for
plain text, base64 for `base64`, base64 of the gzip stream for the
`gz+base64` family (decoded outer-to-inner: base64 then gzip). -/
def encodeContent (gzipF : List Nat → List Nat) (e : String) (data : List Nat) : List Nat :=
  match parseEncodingScheme e with
  | ["application/base64", "application/x-gzip"] => b64encode (gzipF data)
  | ["application/base64"] => b64encode data
  | _ => data

/-! ## Concrete instances used by the claim theorems -/

def selHostA : ByoHostState :=
  { name := "hA", annots := [], machineRef := none, deletionTs := none
    conditions := [], capCpu := none, capMemBytes := none, priority := 0 }

def selHostB : ByoHostState :=
  { name := "hB", annots := [], machineRef := none, deletionTs := none
    conditions := [], capCpu := none, capMemBytes := none, priority := 0 }

def selMachine : ByoMachineSel := { capacityRequirements := none }

def hostC2 : ByoHostState :=
  { name := "h1", annots := [(hostCleanupAnnot, "")], machineRef := some "m1"
    deletionTs := some 0, conditions := [], capCpu := none, capMemBytes := none
    priority := 0 }

def hostC6 : ByoHostState :=
  { name := "h2", annots := [(hostCleanupAnnot, "")], machineRef := some "m2"
    deletionTs := some 0, conditions := [(k8sComponentsInstalledCond, false)]
    capCpu := none, capMemBytes := none, priority := 0 }

def hostC4 : ByoHostState :=
  { name := "h16", annots := [(hostCleanupAnnot, "")], machineRef := some "m3"
    deletionTs := some 0, conditions := [], capCpu := some 16, capMemBytes := none
    priority := 0 }

def envC3 : TLSEnv :=
  { joinMode := JoinModeTLSBootstrap, refBkcData := some (some "OLD"), listBkcDatas := []
    machineSecret := none, restConfigOk := true, genResult := some ("NEW", "tok")
    extractCA := fun _ => none, extractCACloudInit := fun _ => none }

def envC3fresh : TLSEnv :=
  { joinMode := JoinModeTLSBootstrap, refBkcData := none, listBkcDatas := []
    machineSecret := none, restConfigOk := true, genResult := some ("NEW", "tok")
    extractCA := fun _ => none, extractCACloudInit := fun _ => none }

def envC3sec : TLSEnv :=
  { joinMode := JoinModeTLSBootstrap, refBkcData := none, listBkcDatas := []
    machineSecret := some [("bootstrap-kubeconfig", "SEC")], restConfigOk := true
    genResult := some ("NEW", "tok")
    extractCA := fun _ => none, extractCACloudInit := fun _ => none }

/-! ## Theorems -/

/-- C1: the claim says host selection picks position `cursor mod N` in the
top-priority list and never indexes outside it even when the stored
cursor is `≥ N`.  The code indexes `highPriorityHosts[currentIndex]`
without reducing modulo the length (the modulo is applied only when
advancing the cursor), so after a selection among two hosts stores cursor
1, a subsequent call with a single available top-priority host hits an
out-of-range slice access — a runtime panic — where the claim requires
selecting position `1 mod 1 = 0`. -/
theorem selectHostForClaim_stale_cursor_panics :
    selectHostForClaim [selHostA, selHostB] selMachine 0 = .selected selHostA 1 ∧
    selectHostForClaim [selHostA] selMachine 1 = .panicked := by
  constructor <;> rfl

/-- C2: force release does delete the Node, clear `MachineRef` and remove
the cleanup annotations, but the force-cleanup audit marker written
moments earlier is deleted again in the very same reconcile, so the
patched host carries no audit marker for the agent to observe. -/
theorem forceRelease_drops_audit_marker :
    (byoHostReconcile none 1000 true hostC2).nodeDeleted = true ∧
    (byoHostReconcile none 1000 true hostC2).host.machineRef = none ∧
    lookupA (byoHostReconcile none 1000 true hostC2).host.annots hostCleanupAnnot = none ∧
    lookupA (byoHostReconcile none 1000 true hostC2).host.annots cleanupStartedAtAnnot = none ∧
    lookupA (byoHostReconcile none 1000 true hostC2).host.annots forceCleanupAuditAnnot = none := by
  refine ⟨rfl, rfl, rfl, rfl, rfl⟩

/-- C6: the force-release path marks `K8sNodeBootstrapSucceeded` true
unconditionally, so a host whose `K8sComponentsInstallationSucceeded`
condition is False leaves the reconcile with `NodeBootstrapped = True`
and `ComponentsInstalled = False`, violating the claimed implication. -/
theorem forceRelease_bootstrapped_without_components :
    lookupCond (byoHostReconcile none 1000 true hostC6).host.conditions
      k8sNodeBootstrappedCond = some true ∧
    lookupCond (byoHostReconcile none 1000 true hostC6).host.conditions
      k8sComponentsInstalledCond = some false := by
  refine ⟨rfl, rfl⟩

/-- C4 counterexample: for a deleting host with 16 CPUs whose `MachineRef`
is still set, the machine controller finalizes the machine 400 s after the
deletion timestamp, although the host controller's per-host cleanup
timeout for that host is 540 s — the wait bound is not the per-host value
the claim requires. -/
theorem reconcileDelete_ignores_perhost_timeout :
    reconcileDelete (some hostC4) 400 = .finalize ∧
    getCleanupTimeout none hostC4.capCpu hostC4.capMemBytes = 540 ∧
    400 < 540 ∧ hostC4.machineRef ≠ none := by
  refine ⟨rfl, rfl, by omega, by decide⟩

/-- C4 amended: during machine deletion, when the attached host is already
deleting and still carries a `MachineRef`, the controller finalizes
exactly when the elapsed time exceeds the flat constant
`hostCleanupTimeout` of 5 minutes (the host controller's base default)
and requeues otherwise; the bound is this flat constant, not the
capacity-derived, environment-overridable per-host timeout. -/
theorem reconcileDelete_flat_constant_bound (h : ByoHostState) (now ts : Nat)
    (hdel : h.deletionTs = some ts) (href : h.machineRef ≠ none) :
    reconcileDelete (some h) now =
      (if now - ts > hostCleanupTimeout then .finalize
       else .requeue requeueForByohost) ∧
    hostCleanupTimeout = 300 := by
  refine ⟨?_, rfl⟩
  show (match h.deletionTs with
    | some ts =>
      match h.machineRef with
      | some _ =>
        if now - ts > hostCleanupTimeout then DeleteOutcome.finalize
        else DeleteOutcome.requeue requeueForByohost
      | none => DeleteOutcome.finalize
    | none => DeleteOutcome.markedForCleanup requeueForByohost) =
    (if now - ts > hostCleanupTimeout then DeleteOutcome.finalize
     else DeleteOutcome.requeue requeueForByohost)
  rw [hdel]
  cases hm : h.machineRef with
  | none => exact absurd hm href
  | some m => rfl

/-- Closed instance of `reconcileDelete_flat_constant_bound` at a concrete
deleting host. -/
theorem reconcileDelete_flat_constant_bound_witness :
    reconcileDelete (some hostC4) 400 =
      (if 400 - 0 > hostCleanupTimeout then DeleteOutcome.finalize
       else .requeue requeueForByohost) ∧
    hostCleanupTimeout = 300 :=
  reconcileDelete_flat_constant_bound hostC4 400 0 rfl (by decide)

/-- C5 counterexample: with the override set to 1200 s (20 min, out of
range) and no declared capacity, the code falls back to the computed
300 s; the claim requires the override clamped to 900 s. -/
theorem getCleanupTimeout_override_ignored_not_clamped :
    getCleanupTimeout (some 1200) none none = 300 ∧
    specCleanupTimeoutClaimed (some 1200) none none = 900 := by
  refine ⟨rfl, rfl⟩

/-- C5 amended: the per-host cleanup timeout equals 5 minutes, plus 30 s
per CPU beyond 8, plus 1 minute per full 8 GiB of memory beyond 16 GiB,
clamped to [2 min, 15 min]; an in-range environment override is used
flat, and an out-of-range override is ignored in favour of the computed,
clamped value (rather than being clamped itself). -/
theorem getCleanupTimeout_eq_amended_spec (env capCpu capMem : Option Nat) :
    getCleanupTimeout env capCpu capMem = specCleanupTimeoutAmended env capCpu capMem := by
  have hcomputed : ∀ cc cm : Option Nat,
      getCleanupTimeout.getCleanupTimeoutComputed cc cm =
        specCleanupTimeoutClaimed none cc cm := by
    intro cc cm
    unfold getCleanupTimeout.getCleanupTimeoutComputed specCleanupTimeoutClaimed
    cases cc <;> cases cm <;>
      simp only [defaultHostCleanupTimeout, minHostCleanupTimeout, maxHostCleanupTimeout] <;>
      split_ifs <;> omega
  cases env with
  | none =>
    simp only [getCleanupTimeout, specCleanupTimeoutAmended, hcomputed]
  | some t =>
    simp only [getCleanupTimeout, specCleanupTimeoutAmended, hcomputed]

/-- C10: a certificate-signing request that already carries an Approved or
Denied condition is a no-op for the auto-approver: the conditions are
returned unchanged and the approval sub-resource is not submitted, so
approving an already-approved CSR is idempotent. -/
theorem csrReconcile_precheck_short_circuits (csr : CSR)
    (h : checkCSRCondition csr.conditions certificateApproved = true ∨
         checkCSRCondition csr.conditions certificateDenied = true) :
    csrReconcile csr = { conditions := csr.conditions, submittedApproval := false } := by
  unfold csrReconcile
  rcases h with h | h <;> simp [h]

/-- Closed instance of `csrReconcile_precheck_short_circuits` on a CSR
already carrying an Approved condition. -/
theorem csrReconcile_precheck_short_circuits_witness :
    csrReconcile { name := "byoh-csr-x", signerName := kubeAPIServerClientSignerName
                   conditions := [approvedByByoAdmission] } =
      { conditions := [approvedByByoAdmission], submittedApproval := false } :=
  csrReconcile_precheck_short_circuits
    { name := "byoh-csr-x", signerName := kubeAPIServerClientSignerName
      conditions := [approvedByByoAdmission] }
    (Or.inl (by decide))

/-- C8: a command containing one of the characters `;`, `&`, `|`, `$` or
the backquote, or longer than 4096 bytes, is never executed as a shell
child; every other non-blank command is executed as `/bin/bash -c <cmd>`
bound to the caller's cancellation context. -/
theorem runCmd_safety_filter (ctx : Nat) (cmd : String) :
    (hasDangerousChar cmd = true ∨ utf8Len cmd > MaxCommandLength →
      RunCmd ctx cmd = .skipped) ∧
    (isBlankCmd cmd = false → hasDangerousChar cmd = false → utf8Len cmd ≤ MaxCommandLength →
      RunCmd ctx cmd = .executed ctx "/bin/bash" ["-c", cmd]) := by
  constructor
  · intro h
    unfold RunCmd
    split_ifs with h1 h2 h3
    · rfl
    · rfl
    · rfl
    · rcases h with h | h
      · exact absurd h (by simpa using h3)
      · omega
  · intro hblank hdanger hlen
    unfold RunCmd
    rw [if_neg (by simp [hblank]), if_neg (by omega), if_neg (by simp [hdanger])]

/-- Closed instance of `runCmd_safety_filter`: a command with a `;` is
skipped, a plain command is executed under the same context. -/
theorem runCmd_safety_filter_witness :
    RunCmd 0 "a;b" = .skipped ∧
    RunCmd 0 "ls" = .executed 0 "/bin/bash" ["-c", "ls"] :=
  ⟨(runCmd_safety_filter 0 "a;b").1 (Or.inl (by decide)),
   (runCmd_safety_filter 0 "ls").2 (by decide) (by decide) (by decide)⟩

theorem matchSlashSuffix_iff (p s : List Char) :
    matchSlashSuffix p s = true ↔
      (s = p ∨ ∃ t : List Char, t ≠ [] ∧ (∀ c ∈ t, c ≠ '\n') ∧ s = p ++ '/' :: t) := by
  induction p generalizing s with
  | nil =>
    cases s with
    | nil => simp [matchSlashSuffix]
    | cons c cs =>
      simp only [matchSlashSuffix, Bool.and_eq_true, beq_iff_eq, Bool.not_eq_true',
        List.all_eq_true, bne_iff_ne, List.nil_append, ne_eq]
      constructor
      · rintro ⟨⟨rfl, hne⟩, hall⟩
        refine Or.inr ⟨cs, ?_, hall, rfl⟩
        intro hcs
        rw [hcs] at hne
        exact absurd hne (by simp)
      · rintro (h | ⟨t, hne, hall, heq⟩)
        · exact absurd h (List.cons_ne_nil _ _)
        · obtain ⟨rfl, rfl⟩ : c = '/' ∧ cs = t := by
            injection heq with h1 h2; exact ⟨h1, h2⟩
          refine ⟨⟨rfl, ?_⟩, hall⟩
          cases cs with
          | nil => exact absurd rfl hne
          | cons d ds => simp
  | cons q qs ih =>
    cases s with
    | nil =>
      simp [matchSlashSuffix]
    | cons c cs =>
      simp only [matchSlashSuffix, Bool.and_eq_true, beq_iff_eq, ih, List.cons_append,
        List.cons_eq_cons]
      constructor
      · rintro ⟨rfl, (rfl | ⟨t, hne, hall, rfl⟩)⟩
        · exact Or.inl ⟨rfl, rfl⟩
        · exact Or.inr ⟨t, hne, hall, rfl, rfl⟩
      · rintro (⟨rfl, rfl⟩ | ⟨t, hne, hall, rfl, rfl⟩)
        · exact ⟨rfl, Or.inl rfl⟩
        · exact ⟨rfl, Or.inr ⟨t, hne, hall, rfl⟩⟩

theorem specPIDMatchB_iff (pid hostname : String) :
    specPIDMatchB pid hostname = true ↔ SpecPIDFormat pid hostname := by
  unfold specPIDMatchB SpecPIDFormat
  rw [matchSlashSuffix_iff]
  constructor
  · rintro (h | ⟨t, hne, hall, heq⟩)
    · exact Or.inl (String.ext h)
    · refine Or.inr ⟨⟨t⟩, ?_, hall, String.ext ?_⟩
      · intro hc
        exact hne (congrArg String.data hc)
      · rw [String.data_append, String.data_append, heq, String.data_append]
        simp
  · rintro (h | ⟨s, hne, hall, heq⟩)
    · exact Or.inl (congrArg String.data h)
    · refine Or.inr ⟨s.data, ?_, hall, ?_⟩
      · intro hc
        exact hne (String.ext hc)
      · rw [heq, String.data_append, String.data_append, String.data_append]
        simp

theorem relB_iff (a c : Char) :
    ((if a = '.' then c != '\n' else a == c) = true) ↔
      (if a = '.' then c ≠ '\n' else a = c) := by
  split_ifs <;> simp

theorem matchPatSuffix_iff (p s : List Char) :
    matchPatSuffix p s = true ↔
      ∃ body tail : List Char, s = body ++ tail ∧
        List.Forall₂ (fun a c => if a = '.' then c ≠ '\n' else a = c) p body ∧
        (tail = [] ∨ ∃ t : List Char, t ≠ [] ∧ (∀ c ∈ t, c ≠ '\n') ∧ tail = '/' :: t) := by
  induction p generalizing s with
  | nil =>
    cases s with
    | nil =>
      constructor
      · intro _
        exact ⟨[], [], rfl, List.Forall₂.nil, Or.inl rfl⟩
      · intro _
        rfl
    | cons c cs =>
      constructor
      · intro h
        simp only [matchPatSuffix, Bool.and_eq_true, beq_iff_eq, Bool.not_eq_true',
          List.all_eq_true, bne_iff_ne] at h
        obtain ⟨⟨rfl, hne⟩, hall⟩ := h
        refine ⟨[], '/' :: cs, rfl, List.Forall₂.nil, Or.inr ⟨cs, ?_, hall, rfl⟩⟩
        intro hcs
        rw [hcs] at hne
        exact absurd hne (by simp)
      · rintro ⟨body, tail, heq, hf, htail⟩
        have hbody : body = [] := List.forall₂_nil_left_iff.mp hf
        subst hbody
        simp only [List.nil_append] at heq
        subst heq
        rcases htail with h | ⟨t, hne, hall, heq2⟩
        · exact absurd h (List.cons_ne_nil _ _)
        · obtain ⟨rfl, rfl⟩ : c = '/' ∧ cs = t := by
            injection heq2 with h1 h2; exact ⟨h1, h2⟩
          simp only [matchPatSuffix, Bool.and_eq_true, beq_iff_eq, Bool.not_eq_true',
            List.all_eq_true, bne_iff_ne]
          refine ⟨⟨by trivial, ?_⟩, hall⟩
          cases cs with
          | nil => exact absurd rfl hne
          | cons d ds => simp
  | cons a ps ih =>
    cases s with
    | nil =>
      constructor
      · intro h
        exact absurd h (by simp [matchPatSuffix])
      · rintro ⟨body, tail, heq, hf, -⟩
        rcases List.forall₂_cons_left_iff.mp hf with ⟨b, body2, -, -, rfl⟩
        simp at heq
    | cons c cs =>
      simp only [matchPatSuffix, Bool.and_eq_true, relB_iff, ih]
      constructor
      · rintro ⟨hrel, body, tail, rfl, hf, htail⟩
        exact ⟨c :: body, tail, rfl, List.Forall₂.cons hrel hf, htail⟩
      · rintro ⟨body, tail, heq, hf, htail⟩
        rcases List.forall₂_cons_left_iff.mp hf with ⟨b, body2, hrel, hf2, rfl⟩
        rw [List.cons_append] at heq
        injection heq with h1 h2
        subst h1
        exact ⟨hrel, body2, tail, h2, hf2, htail⟩

theorem providerIDMatch_iff (pid hostname : String) :
    providerIDMatch pid hostname = true ↔ GoPIDFormat pid hostname := by
  unfold providerIDMatch GoPIDFormat
  exact matchPatSuffix_iff _ _

/-- C7 counterexample: `ValidateProviderID` splices the hostname into the
regex unescaped, so for the dotted hostname `node.example.com` each '.'
matches any character: the fetched provider id `byoh://nodeXexample.com`
is accepted and returned with the Node unchanged, where the claim's
pattern `^byoh://<hostname>(/.+)?$` (hostname read literally) requires
an error to be returned. -/
theorem setNodeProviderID_dotted_hostname_accepts_mismatch :
    setNodeProviderID ⟨"byoh://nodeXexample.com"⟩ "node.example.com" =
      .ok "byoh://nodeXexample.com" ⟨"byoh://nodeXexample.com"⟩ false ∧
    ¬ SpecPIDFormat "byoh://nodeXexample.com" "node.example.com" :=
  ⟨by decide,
   fun hs => absurd ((specPIDMatchB_iff "byoh://nodeXexample.com" "node.example.com").mpr hs)
     (by decide)⟩

/-- C7 amended: after fetching the workload-cluster Node named after the
host, an empty `providerID` is patched to exactly `byoh://<hostname>`;
a non-empty value is validated against the pattern obtained by splicing
the hostname unescaped into `^byoh://<hostname>(/.+)?$`, under which a
'.' in the hostname matches any single non-newline character: a matching
value is returned with the Node unchanged, and a non-matching value
yields an error with the Node unchanged. -/
theorem setNodeProviderID_cases (node : NodeS) (hostName : String) :
    (node.providerID = "" →
      setNodeProviderID node hostName =
        .ok (GenerateProviderID hostName) ⟨GenerateProviderID hostName⟩ true) ∧
    (node.providerID ≠ "" → GoPIDFormat node.providerID hostName →
      setNodeProviderID node hostName = .ok node.providerID node false) ∧
    (node.providerID ≠ "" → ¬ GoPIDFormat node.providerID hostName →
      setNodeProviderID node hostName = .invalidFormat) := by
  obtain ⟨pid⟩ := node
  refine ⟨?_, ?_, ?_⟩
  · intro h
    have hp : pid = "" := h
    subst hp
    rfl
  · intro hne hspec
    have hm : providerIDMatch pid hostName = true := (providerIDMatch_iff _ _).mpr hspec
    unfold setNodeProviderID ValidateProviderID
    have hne' : (NodeS.mk pid).providerID ≠ "" := hne
    rw [if_pos hne', if_neg hne', hm]
  · intro hne hspec
    have hm : providerIDMatch pid hostName = false := by
      rcases hb : providerIDMatch pid hostName with _ | _
      · rfl
      · exact absurd ((providerIDMatch_iff _ _).mp hb) hspec
    unfold setNodeProviderID ValidateProviderID
    have hne' : (NodeS.mk pid).providerID ≠ "" := hne
    rw [if_pos hne', if_neg hne', hm]

/-- Closed instance of `setNodeProviderID_cases` at the three kinds of
fetched Node. -/
theorem setNodeProviderID_cases_witness :
    setNodeProviderID ⟨""⟩ "h1" =
      .ok (GenerateProviderID "h1") ⟨GenerateProviderID "h1"⟩ true ∧
    setNodeProviderID ⟨"byoh://h1"⟩ "h1" = .ok "byoh://h1" ⟨"byoh://h1"⟩ false ∧
    setNodeProviderID ⟨"aws://h1"⟩ "h1" = .invalidFormat :=
  ⟨(setNodeProviderID_cases ⟨""⟩ "h1").1 rfl,
   (setNodeProviderID_cases ⟨"byoh://h1"⟩ "h1").2.1 (by decide)
     ((providerIDMatch_iff "byoh://h1" "h1").mp (by decide)),
   (setNodeProviderID_cases ⟨"aws://h1"⟩ "h1").2.2 (by decide)
     (fun hs => absurd ((providerIDMatch_iff "aws://h1" "h1").mpr hs) (by decide))⟩

/-- C3 counterexample: in TLS-bootstrap mode, when the machine references
a BootstrapKubeconfig whose status already carries the published
kubeconfig "OLD", the assembled secret reuses "OLD" as its
bootstrap-kubeconfig and no fresh token is minted, even though a token
generator is available. -/
theorem tls_secret_reuses_referenced_credential :
    createBootstrapSecretTLSBootstrap envC3 =
      .ok { caData := none, kubeconfigData := some "OLD", generatedToken := none } := by
  rfl

/-- C3 amended: in TLS-bootstrap mode the controller does not always
mint a fresh token.  A non-empty kubeconfig published in the status of
the explicitly referenced BootstrapKubeconfig is reused verbatim with no
token minted; failing that, a non-empty bootstrap-kubeconfig already
stored in the machine's bootstrap data secret is likewise reused with no
token minted.  Only the namespace-wide BootstrapKubeconfig list lookup
is skipped in TLS-bootstrap mode, and a fresh token is minted when
neither the reference nor a machine bootstrap secret supplies data and
the local generator succeeds. -/
theorem tls_secret_credential_sources (env : TLSEnv) (d c tok : String)
    (kv : List (String × String)) :
    (env.refBkcData = some (some d) → 0 < d.length →
      createBootstrapSecretTLSBootstrap env =
        .ok { caData := env.extractCA d, kubeconfigData := some d
              generatedToken := none }) ∧
    (env.joinMode = JoinModeTLSBootstrap →
      createBootstrapSecretTLSBootstrap env =
        createBootstrapSecretTLSBootstrap { env with listBkcDatas := [] }) ∧
    (env.joinMode = JoinModeTLSBootstrap → env.refBkcData = none →
      env.machineSecret = some kv → lookupA kv "bootstrap-kubeconfig" = some d →
      0 < d.length →
      ∃ ca, createBootstrapSecretTLSBootstrap env =
        .ok { caData := ca, kubeconfigData := some d, generatedToken := none }) ∧
    (env.joinMode = JoinModeTLSBootstrap → env.refBkcData = none →
      env.machineSecret = none → env.restConfigOk = true →
      env.genResult = some (c, tok) → 0 < c.length →
      createBootstrapSecretTLSBootstrap env =
        .ok { caData := env.extractCA c, kubeconfigData := some c
              generatedToken := some tok }) := by
  obtain ⟨jm, rb, lb, ms, rc, gr, eca, ecci⟩ := env
  refine ⟨?_, ?_, ?_, ?_⟩
  · intro href hd
    have href' : rb = some (some d) := href
    subst href'
    unfold createBootstrapSecretTLSBootstrap
    simp only [if_pos hd]
    simp [Option.isNone, hd, Nat.pos_iff_ne_zero.mp hd]
  · intro hjm
    have hjm' : jm = JoinModeTLSBootstrap := hjm
    subst hjm'
    unfold createBootstrapSecretTLSBootstrap
    simp
  · intro hjm href hms hkc hd
    have hjm' : jm = JoinModeTLSBootstrap := hjm
    have href' : rb = none := href
    have hms' : ms = some kv := hms
    subst hjm' href' hms'
    have hd' : d.length ≠ 0 := Nat.pos_iff_ne_zero.mp hd
    unfold createBootstrapSecretTLSBootstrap
    rcases heca : eca d with _ | ca
    · rcases hcrt : lookupA kv "ca.crt" with _ | e
      · rcases hval : lookupA kv "value" with _ | v
        · exact ⟨none, by simp [hkc, heca, hcrt, hval, hd, hd']⟩
        · by_cases hv : v.length > 0
          · exact ⟨ecci v, by simp [hkc, heca, hcrt, hval, hd, hd', hv]⟩
          · exact ⟨none, by simp [hkc, heca, hcrt, hval, hd, hd', hv]⟩
      · by_cases he : e.length > 0
        · exact ⟨some e, by simp [hkc, heca, hcrt, hd, hd', he]⟩
        · rcases hval : lookupA kv "value" with _ | v
          · exact ⟨none, by simp [hkc, heca, hcrt, hval, hd, hd', he]⟩
          · by_cases hv : v.length > 0
            · exact ⟨ecci v, by simp [hkc, heca, hcrt, hval, hd, hd', he, hv]⟩
            · exact ⟨none, by simp [hkc, heca, hcrt, hval, hd, hd', he, hv]⟩
    · exact ⟨some ca, by simp [hkc, heca, hd, hd']⟩
  · intro hjm href hms hrc hgen hc
    have hjm' : jm = JoinModeTLSBootstrap := hjm
    have href' : rb = none := href
    have hms' : ms = none := hms
    have hrc' : rc = true := hrc
    have hgen' : gr = some (c, tok) := hgen
    subst hjm' href' hms' hrc' hgen'
    unfold createBootstrapSecretTLSBootstrap
    simp [Option.isNone, Nat.pos_iff_ne_zero.mp hc]

/-- Closed instance of `tls_secret_credential_sources` at a
referenced-credential reuse environment, a machine-secret reuse
environment and a fresh-mint environment. -/
theorem tls_secret_credential_sources_witness :
    createBootstrapSecretTLSBootstrap envC3 =
      .ok { caData := envC3.extractCA "OLD", kubeconfigData := some "OLD"
            generatedToken := none } ∧
    createBootstrapSecretTLSBootstrap envC3 =
      createBootstrapSecretTLSBootstrap { envC3 with listBkcDatas := [] } ∧
    (∃ ca, createBootstrapSecretTLSBootstrap envC3sec =
      .ok { caData := ca, kubeconfigData := some "SEC", generatedToken := none }) ∧
    createBootstrapSecretTLSBootstrap envC3fresh =
      .ok { caData := envC3fresh.extractCA "NEW", kubeconfigData := some "NEW"
            generatedToken := some "tok" } :=
  ⟨(tls_secret_credential_sources envC3 "OLD" "x" "y" []).1 rfl (by decide),
   (tls_secret_credential_sources envC3 "OLD" "x" "y" []).2.1 rfl,
   (tls_secret_credential_sources envC3sec "SEC" "x" "y"
       [("bootstrap-kubeconfig", "SEC")]).2.2.1 rfl rfl rfl rfl (by decide),
   (tls_secret_credential_sources envC3fresh "d" "NEW" "tok" []).2.2.2 rfl rfl rfl rfl rfl
     (by decide)⟩

theorem bToSextet_sextetToB : ∀ n, n < 64 → bToSextet (sextetToB n) = some n := by
  decide

theorem sextetToB_ne_padB : ∀ n, n < 64 → sextetToB n ≠ padB := by
  decide

theorem b64encode_cons_ne_nil (a : Nat) (rest : List Nat) : b64encode (a :: rest) ≠ [] := by
  match rest with
  | [] => simp [b64encode]
  | [b] => simp [b64encode]
  | b :: c :: rs => simp [b64encode]

theorem b64decode_b64encode :
    ∀ l : List Nat, (∀ b ∈ l, b < 256) → b64decode (b64encode l) = some l := by
  intro l
  induction l using b64encode.induct with
  | case1 =>
    intro _
    rfl
  | case2 a =>
    intro hb
    have ha : a < 256 := hb a (by simp)
    simp only [b64encode, b64decode, List.isEmpty_nil, if_pos rfl, decodeLast4,
      bToSextet_sextetToB (a / 4) (by omega), bToSextet_sextetToB (a % 4 * 16) (by omega)]
    simp
    omega
  | case3 a b =>
    intro hb
    have ha : a < 256 := hb a (by simp)
    have hb' : b < 256 := hb b (by simp)
    simp only [b64encode, b64decode, List.isEmpty_nil, if_pos rfl, decodeLast4,
      if_neg (sextetToB_ne_padB (b % 16 * 4) (by omega)), if_pos rfl,
      bToSextet_sextetToB (a / 4) (by omega),
      bToSextet_sextetToB (a % 4 * 16 + b / 16) (by omega),
      bToSextet_sextetToB (b % 16 * 4) (by omega)]
    simp
    constructor <;> omega
  | case4 a b c rest ih =>
    intro hb
    have ha : a < 256 := hb a (by simp)
    have hb' : b < 256 := hb b (by simp)
    have hc : c < 256 := hb c (by simp)
    have hrest : ∀ x ∈ rest, x < 256 := fun x hx => hb x (by simp [hx])
    have h1 : a / 4 * 4 + (a % 4 * 16 + b / 16) / 16 = a := by omega
    have h2 : (a % 4 * 16 + b / 16) % 16 * 16 + (b % 16 * 4 + c / 64) / 4 = b := by omega
    have h3 : (b % 16 * 4 + c / 64) % 4 * 64 + c % 64 = c := by omega
    cases rest with
    | nil =>
      simp only [b64encode, b64decode, List.isEmpty_nil, if_pos rfl, decodeLast4,
        if_neg (sextetToB_ne_padB (b % 16 * 4 + c / 64) (by omega)),
        if_neg (sextetToB_ne_padB (c % 64) (by omega)),
        bToSextet_sextetToB (a / 4) (by omega),
        bToSextet_sextetToB (a % 4 * 16 + b / 16) (by omega),
        bToSextet_sextetToB (b % 16 * 4 + c / 64) (by omega),
        bToSextet_sextetToB (c % 64) (by omega)]
      simp [h1, h2, h3]
    | cons r rs =>
      have hne : (b64encode (r :: rs)).isEmpty = false := by
        cases henc : b64encode (r :: rs) with
        | nil => exact absurd henc (b64encode_cons_ne_nil r rs)
        | cons e es => rfl
      simp only [b64encode, b64decode, hne, if_neg Bool.false_ne_true,
        bToSextet_sextetToB (a / 4) (by omega),
        bToSextet_sextetToB (a % 4 * 16 + b / 16) (by omega),
        bToSextet_sextetToB (b % 16 * 4 + c / 64) (by omega),
        bToSextet_sextetToB (c % 64) (by omega),
        ih hrest]
      simp [h1, h2, h3]

theorem parseEncodingScheme_cases (e : String) :
    parseEncodingScheme e = ["application/base64", "application/x-gzip"] ∨
    parseEncodingScheme e = ["application/base64"] ∨
    parseEncodingScheme e = ["text/plain"] := by
  simp only [parseEncodingScheme]
  split_ifs <;> simp

/-- C9: for every encoding in the plain, base64 and gz+base64 families
and every byte string, decoding the corresponding encoding of the data
with the cloud-init content decoder (base64 first, then gunzip, per the
parsed scheme) returns the data unchanged.  The external gzip codec is
abstracted as a pair `gzipF`/`gunzipF` assumed to round-trip and to
produce bytes. -/
theorem decodeContent_encodeContent_roundtrip (gzipF : List Nat → List Nat)
    (gunzipF : List Nat → Except String (List Nat))
    (hgz : ∀ d, gunzipF (gzipF d) = .ok d)
    (hgzb : ∀ d, (∀ x ∈ d, x < 256) → ∀ x ∈ gzipF d, x < 256)
    (e : String) (data : List Nat) (hdata : ∀ x ∈ data, x < 256) :
    decodeContent gunzipF (encodeContent gzipF e data) (parseEncodingScheme e) =
      .ok data := by
  rcases parseEncodingScheme_cases e with h | h | h <;>
    rw [encodeContent, h]
  · simp only [decodeContent, b64decode_b64encode (gzipF data) (hgzb data hdata),
      reduceIte, hgz data]
    simp [decodeContent, hgz data]
  · simp [decodeContent, b64decode_b64encode data hdata]
  · simp [decodeContent]

/-- Closed instance of `decodeContent_encodeContent_roundtrip` with the
identity gzip codec on a two-byte string under `gz+base64`. -/
theorem decodeContent_encodeContent_roundtrip_witness :
    decodeContent (fun d => Except.ok d)
        (encodeContent (fun d => d) "gz+base64" [104, 105])
        (parseEncodingScheme "gz+base64") =
      .ok [104, 105] :=
  decodeContent_encodeContent_roundtrip (fun d => d) (fun d => .ok d)
    (fun _ => rfl) (fun _ h => h) "gz+base64" [104, 105] (by decide)
